import Mathlib

/-!
Verification development for the vision-app repository (a goal-tracking web
application).  The repository consists of four JavaScript files:

* `db-check.js` — a connection probe plus the authenticated server
  (per-user goals, register/login with scrypt-hashed passwords,
  Supabase or SQLite backend);
* `server.js` — two server variants: an unauthenticated one whose goal
  table is global (no `username` column), and an authenticated Supabase
  variant identical in behaviour to the one in `db-check.js`;
* `src/App.jsx` — the original client (no login, fence-unaware AI parsing);
* an unnamed client file (`part_000`) — the authenticated client
  (login form, debounced per-user sync, fence-stripping AI parsing).

JSON values are modelled by `JVal` (numbers as integers — every numeric
field the application stores, ids from `Date.now()`, months, deadlines, is
integral).  JavaScript coercions used by the code (`String(id)`,
truthiness) are modelled explicitly.  Timestamps are milliseconds since the
Unix epoch (`Nat`), and the runtime is modelled as running in UTC, so the
calendar day of a timestamp `t` is `t / 86400000` and `toISOString`'s date
part is `isoDate` of that day.
-/

/-- JSON values.  Numbers are modelled as integers: every number the
application round-trips (ids, months, counts, flags) is integral. -/
inductive JVal where
  | null : JVal
  | bool : Bool → JVal
  | num : Int → JVal
  | str : String → JVal
  | arr : List JVal → JVal
  | obj : List (String × JVal) → JVal

mutual
/-- Decidable equality on `JVal` (the derive handler does not support the
nested occurrences in `arr`/`obj`). -/
def jvalDecEq : (a b : JVal) → Decidable (a = b)
  | .null, .null => .isTrue rfl
  | .null, .bool _ => .isFalse (by intro h; exact JVal.noConfusion h)
  | .null, .num _ => .isFalse (by intro h; exact JVal.noConfusion h)
  | .null, .str _ => .isFalse (by intro h; exact JVal.noConfusion h)
  | .null, .arr _ => .isFalse (by intro h; exact JVal.noConfusion h)
  | .null, .obj _ => .isFalse (by intro h; exact JVal.noConfusion h)
  | .bool _, .null => .isFalse (by intro h; exact JVal.noConfusion h)
  | .bool a, .bool b =>
    if h : a = b then .isTrue (by rw [h]) else .isFalse (by intro he; injection he; contradiction)
  | .bool _, .num _ => .isFalse (by intro h; exact JVal.noConfusion h)
  | .bool _, .str _ => .isFalse (by intro h; exact JVal.noConfusion h)
  | .bool _, .arr _ => .isFalse (by intro h; exact JVal.noConfusion h)
  | .bool _, .obj _ => .isFalse (by intro h; exact JVal.noConfusion h)
  | .num _, .null => .isFalse (by intro h; exact JVal.noConfusion h)
  | .num _, .bool _ => .isFalse (by intro h; exact JVal.noConfusion h)
  | .num a, .num b =>
    if h : a = b then .isTrue (by rw [h]) else .isFalse (by intro he; injection he; contradiction)
  | .num _, .str _ => .isFalse (by intro h; exact JVal.noConfusion h)
  | .num _, .arr _ => .isFalse (by intro h; exact JVal.noConfusion h)
  | .num _, .obj _ => .isFalse (by intro h; exact JVal.noConfusion h)
  | .str _, .null => .isFalse (by intro h; exact JVal.noConfusion h)
  | .str _, .bool _ => .isFalse (by intro h; exact JVal.noConfusion h)
  | .str _, .num _ => .isFalse (by intro h; exact JVal.noConfusion h)
  | .str a, .str b =>
    if h : a = b then .isTrue (by rw [h]) else .isFalse (by intro he; injection he; contradiction)
  | .str _, .arr _ => .isFalse (by intro h; exact JVal.noConfusion h)
  | .str _, .obj _ => .isFalse (by intro h; exact JVal.noConfusion h)
  | .arr _, .null => .isFalse (by intro h; exact JVal.noConfusion h)
  | .arr _, .bool _ => .isFalse (by intro h; exact JVal.noConfusion h)
  | .arr _, .num _ => .isFalse (by intro h; exact JVal.noConfusion h)
  | .arr _, .str _ => .isFalse (by intro h; exact JVal.noConfusion h)
  | .arr xs, .arr ys =>
    match jvalListDecEq xs ys with
    | .isTrue h => .isTrue (by rw [h])
    | .isFalse h => .isFalse (by intro he; injection he; contradiction)
  | .arr _, .obj _ => .isFalse (by intro h; exact JVal.noConfusion h)
  | .obj _, .null => .isFalse (by intro h; exact JVal.noConfusion h)
  | .obj _, .bool _ => .isFalse (by intro h; exact JVal.noConfusion h)
  | .obj _, .num _ => .isFalse (by intro h; exact JVal.noConfusion h)
  | .obj _, .str _ => .isFalse (by intro h; exact JVal.noConfusion h)
  | .obj _, .arr _ => .isFalse (by intro h; exact JVal.noConfusion h)
  | .obj xs, .obj ys =>
    match jvalFieldsDecEq xs ys with
    | .isTrue h => .isTrue (by rw [h])
    | .isFalse h => .isFalse (by intro he; injection he; contradiction)

/-- Decidable equality on lists of `JVal`. -/
def jvalListDecEq : (xs ys : List JVal) → Decidable (xs = ys)
  | [], [] => .isTrue rfl
  | [], _ :: _ => .isFalse (by intro h; exact List.noConfusion h)
  | _ :: _, [] => .isFalse (by intro h; exact List.noConfusion h)
  | x :: xs, y :: ys =>
    match jvalDecEq x y, jvalListDecEq xs ys with
    | .isTrue h1, .isTrue h2 => .isTrue (by rw [h1, h2])
    | .isFalse h1, _ => .isFalse (by intro he; injection he; contradiction)
    | _, .isFalse h2 => .isFalse (by intro he; injection he; contradiction)

/-- Decidable equality on `JVal` field lists. -/
def jvalFieldsDecEq : (xs ys : List (String × JVal)) → Decidable (xs = ys)
  | [], [] => .isTrue rfl
  | [], _ :: _ => .isFalse (by intro h; exact List.noConfusion h)
  | _ :: _, [] => .isFalse (by intro h; exact List.noConfusion h)
  | (k, x) :: xs, (k', y) :: ys =>
    match inferInstanceAs (Decidable (k = k')), jvalDecEq x y, jvalFieldsDecEq xs ys with
    | .isTrue h0, .isTrue h1, .isTrue h2 => .isTrue (by rw [h0, h1, h2])
    | .isFalse h0, _, _ =>
      .isFalse (by intro he; injection he with hp ht; injection hp; contradiction)
    | _, .isFalse h1, _ =>
      .isFalse (by intro he; injection he with hp ht; injection hp; contradiction)
    | _, _, .isFalse h2 => .isFalse (by intro he; injection he; contradiction)
end

instance : DecidableEq JVal := jvalDecEq

/-- First-match association lookup, modelling JS property access on an
object literal with distinct keys. -/
def jLookup (k : String) : List (String × JVal) → Option JVal
  | [] => none
  | (k', v) :: rest => if k' = k then some v else jLookup k rest

/-- JS truthiness of a possibly-absent value (`undefined`, `null`, `false`,
`0` and the empty string are falsy). -/
def truthy : Option JVal → Bool
  | none => false
  | some .null => false
  | some (.bool b) => b
  | some (.num n) => n != 0
  | some (.str s) => s != ""
  | some (.arr _) => true
  | some (.obj _) => true

mutual
/-- The JS `String(...)` coercion on a JSON value. -/
def jsString : JVal → String
  | .null => "null"
  | .bool b => cond b "true" "false"
  | .num n => toString n
  | .str s => s
  | .arr xs => String.intercalate "," (jsStringList xs)
  | .obj _ => "[object Object]"

/-- Element-wise coercion used by `Array.prototype.join` (`null` prints as
the empty string inside an array). -/
def jsStringList : List JVal → List String
  | [] => []
  | v :: vs =>
    (match v with
     | .null => ""
     | w => jsString w) :: jsStringList vs
end

/-- Property access `v[k]` when `v` is an object (otherwise `undefined`). -/
def jField (v : JVal) (k : String) : Option JVal :=
  match v with
  | .obj fs => jLookup k fs
  | _ => none

/-- Index access `v[i]` when `v` is an array (otherwise `undefined`). -/
def jIndex (v : JVal) (i : Nat) : Option JVal :=
  match v with
  | .arr xs => xs.get? i
  | _ => none

/-- Whitespace characters recognised by the JS `\s` class (ASCII part). -/
def isWsChar (c : Char) : Bool :=
  c = ' ' || c = '\t' || c = '\n' || c = '\r' || c = '\x0b' || c = '\x0c'

/-! ### A small JSON parser

Executable model of `JSON.parse` restricted to the JSON fragment the
application exchanges: objects, arrays, strings with simple escapes,
integer numerals, `true`/`false`/`null`.  Parsing proceeds on the
character list with explicit fuel (one unit per nesting step, so
`length + 1` fuel always suffices for the inputs used here). -/

/-- Parse the body of a JSON string after the opening quote; returns the
content and the remainder after the closing quote. -/
def parseStrAux : List Char → Option (List Char × List Char)
  | [] => none
  | '"' :: rest => some ([], rest)
  | '\\' :: c :: rest =>
    (match c with
     | '"' => some '"'
     | '\\' => some '\\'
     | '/' => some '/'
     | 'n' => some '\n'
     | 't' => some '\t'
     | 'r' => some '\r'
     | 'b' => some '\x08'
     | 'f' => some '\x0c'
     | _ => none).bind fun ch =>
      (parseStrAux rest).map fun (cs, rem) => (ch :: cs, rem)
  | '\\' :: [] => none
  | c :: rest =>
    if c = '"' ∨ c = '\\' then none
    else (parseStrAux rest).map fun (cs, rem) => (c :: cs, rem)

/-- Parse a nonempty run of decimal digits. -/
def parseDigits (cs : List Char) : Option (Nat × List Char) :=
  let ds := cs.takeWhile (·.isDigit)
  if ds = [] then none
  else some (ds.foldl (fun acc c => acc * 10 + (c.toNat - '0'.toNat)) 0, cs.drop ds.length)

mutual
/-- Parse one JSON value; returns the value and the unconsumed remainder. -/
def parseVal : Nat → List Char → Option (JVal × List Char)
  | 0, _ => none
  | fuel + 1, cs0 =>
    match cs0.dropWhile isWsChar with
    | [] => none
    | '"' :: rest =>
      (parseStrAux rest).map fun (content, rem) => (.str ⟨content⟩, rem)
    | 'n' :: 'u' :: 'l' :: 'l' :: rest => some (.null, rest)
    | 't' :: 'r' :: 'u' :: 'e' :: rest => some (.bool true, rest)
    | 'f' :: 'a' :: 'l' :: 's' :: 'e' :: rest => some (.bool false, rest)
    | '-' :: rest =>
      (parseDigits rest).map fun (n, rem) => (.num (-(n : Int)), rem)
    | '\x5b' :: rest =>
      match rest.dropWhile isWsChar with
      | '\x5d' :: rem => some (.arr [], rem)
      | other => (parseElems fuel other).map fun (vs, rem) => (.arr vs, rem)
    | '\x7b' :: rest =>
      match rest.dropWhile isWsChar with
      | '\x7d' :: rem => some (.obj [], rem)
      | other => (parseFields fuel other).map fun (fs, rem) => (.obj fs, rem)
    | c :: rest =>
      if c.isDigit then
        (parseDigits (c :: rest)).map fun (n, rem) => (.num (n : Int), rem)
      else none

/-- Parse a comma-separated nonempty list of array elements up to `]`. -/
def parseElems : Nat → List Char → Option (List JVal × List Char)
  | 0, _ => none
  | fuel + 1, cs =>
    (parseVal fuel cs).bind fun (v, rem) =>
      match rem.dropWhile isWsChar with
      | ',' :: more => (parseElems fuel more).map fun (vs, r) => (v :: vs, r)
      | '\x5d' :: more => some ([v], more)
      | _ => none

/-- Parse a comma-separated nonempty list of object fields up to the
closing brace. -/
def parseFields : Nat → List Char → Option (List (String × JVal) × List Char)
  | 0, _ => none
  | fuel + 1, cs =>
    match cs.dropWhile isWsChar with
    | '"' :: rest =>
      (parseStrAux rest).bind fun (key, rem) =>
        match rem.dropWhile isWsChar with
        | ':' :: rem2 =>
          (parseVal fuel rem2).bind fun (v, rem3) =>
            match rem3.dropWhile isWsChar with
            | ',' :: rem4 =>
              (parseFields fuel rem4).map fun (fs, r) => ((⟨key⟩, v) :: fs, r)
            | '\x7d' :: rem4 => some ([(⟨key⟩, v)], rem4)
            | _ => none
        | _ => none
    | _ => none
end

/-- Model of `JSON.parse`: `none` when the input is not a single JSON value
(possibly surrounded by whitespace). -/
def jsonParse (s : String) : Option JVal :=
  match parseVal (s.data.length + 1) s.data with
  | some (v, rem) => if rem.dropWhile isWsChar = [] then some v else none
  | none => none

/-! ### Calendar-day formatting

The clients key habit history by `d.toISOString().split('T')[0]`, i.e. the
`YYYY-MM-DD` date of the instant.  With the runtime modelled in UTC, the
calendar day of a millisecond timestamp `t` is `t / 86400000` (days since
1970-01-01) and the key is `isoDate` of that day number.  The civil-date
conversion below is the standard days-to-Gregorian algorithm, valid for
day numbers `≥ 0` (all timestamps the application handles are after the
epoch). -/

/-- Pretty-print a month or day number to two digits. -/
def pad2 (n : Nat) : String :=
  if n < 10 then "0" ++ toString n else toString n

/-- Gregorian `(year, month, day)` of a day number (days since
1970-01-01). -/
def civilFromDays (n : Nat) : Nat × Nat × Nat :=
  let z := n + 719468
  let era := z / 146097
  let doe := z - era * 146097
  let yoe := (doe - doe / 1460 + doe / 36524 - doe / 146096) / 365
  let y := yoe + era * 400
  let doy := doe - (365 * yoe + yoe / 4 - yoe / 100)
  let mp := (5 * doy + 2) / 153
  let d := doy - (153 * mp + 2) / 5 + 1
  let m := if mp < 10 then mp + 3 else mp - 9
  (if m ≤ 2 then y + 1 else y, m, d)

/-- The `YYYY-MM-DD` key of a day number, as produced by
`toISOString().split('T')[0]`. -/
def isoDate (n : Nat) : String :=
  let c := civilFromDays n
  toString c.1 ++ "-" ++ pad2 c.2.1 ++ "-" ++ pad2 c.2.2

/-! ### The goal/habit domain model -/

/-- A client-side goal as produced by the application: the five fixed
fields every goal carries, plus the remaining fields (`subTasks`,
`doneSubTasks`, `history`, `roadmap`, `advice`, `rewardIdea`,
`deadlineMonth`, `isExam`, …) as a JSON object body, exactly the split the
servers use when storing a goal row (`rest` is what the handlers collect
with `...rest` and store in the `data` column).  The id is a `JVal`
because the client creates ids as numbers (`Date.now()`) while the servers
store `String(id)`. -/
structure Goal where
  id : JVal
  text : String
  category : String
  completed : Bool
  createdAt : String
  rest : List (String × JVal)
deriving DecidableEq

/-- Habit-statistics result `{rate, daysElapsed, count}`. -/
structure HabitStats where
  rate : Nat
  daysElapsed : Nat
  count : Nat
deriving DecidableEq

/-- The view of a goal used by `getHabitStats`: its category, the parsed
millisecond timestamp of `createdAt` (`none` when `goal.createdAt` is
absent or empty, i.e. falsy), and the habit history object. -/
structure HGoal where
  category : String
  createdAtMs : Option Nat
  history : List (String × JVal)

/-- Milliseconds per day (`1000 * 60 * 60 * 24`). -/
def msPerDay : Nat := 86400000

/-- `Math.abs(now - start)` on timestamps. -/
def absDiff (a b : Nat) : Nat := max a b - min a b

/-- `Math.ceil` of a nonnegative exact division. -/
def ceilDiv (a b : Nat) : Nat := (a + b - 1) / b

/-- `Math.round(num / den)` for nonnegative arguments (JS rounds halves
up). -/
def jsRound (num den : Nat) : Nat := (2 * num + den) / (2 * den)

namespace ClientMain

/-- `getHabitStats` of the authenticated client (unnamed source file,
lines 92–103): `daysElapsed = Math.max(1, Math.min(30,
Math.ceil(Math.abs(now - start) / 86400000)))`, then a backward walk over
the trailing `daysElapsed` calendar days counting truthy `history`
entries, and `rate = Math.round((count / daysElapsed) * 100)`. -/
def getHabitStats (g : HGoal) (nowMs : Nat) : HabitStats :=
  if g.category ≠ "HABIT" then ⟨0, 0, 0⟩
  else
    match g.createdAtMs with
    | none => ⟨0, 0, 0⟩
    | some start =>
      let daysElapsed := max 1 (min 30 (ceilDiv (absDiff nowMs start) msPerDay))
      let nowDay := nowMs / msPerDay
      let count := (List.range daysElapsed).countP fun i =>
        truthy (jLookup (isoDate (nowDay - i)) g.history)
      ⟨jsRound (100 * count) daysElapsed, daysElapsed, count⟩

end ClientMain

namespace ClientA

/-- `getHabitStats` of `src/App.jsx` (lines 47–67): same computation
written with `if (daysElapsed === 0) daysElapsed = 1; if (daysElapsed >
30) daysElapsed = 30;` instead of `max`/`min`. -/
def getHabitStats (g : HGoal) (nowMs : Nat) : HabitStats :=
  if g.category ≠ "HABIT" then ⟨0, 0, 0⟩
  else
    match g.createdAtMs with
    | none => ⟨0, 0, 0⟩
    | some start =>
      let d0 := ceilDiv (absDiff nowMs start) msPerDay
      let d1 := if d0 = 0 then 1 else d0
      let daysElapsed := if d1 > 30 then 30 else d1
      let nowDay := nowMs / msPerDay
      let count := (List.range daysElapsed).countP fun i =>
        truthy (jLookup (isoDate (nowDay - i)) g.history)
      ⟨jsRound (100 * count) daysElapsed, daysElapsed, count⟩

end ClientA

/-- Habit statistics exactly as the specification words them:
`daysElapsed = clamp(ceil(hours since createdAt / 24), 1, 30)`; `count` =
number of days in the trailing `daysElapsed`-day window ending at `asOf`
(inclusive, stepping backward one calendar day at a time) whose `history`
entry is truthy; `rate = round(100 × count / daysElapsed)`; rate 0 for
non-HABIT goals or a missing `createdAt`. -/
def habitStatsSpec (g : HGoal) (nowMs : Nat) : HabitStats :=
  if g.category = "HABIT" then
    match g.createdAtMs with
    | some start =>
      let daysElapsed := min 30 (max 1 (ceilDiv (nowMs - start) (3600000 * 24)))
      let window := (List.range daysElapsed).map fun i => isoDate (nowMs / msPerDay - i)
      let count := (window.filter fun d => truthy (jLookup d g.history)).length
      ⟨jsRound (100 * count) daysElapsed, daysElapsed, count⟩
    | none => ⟨0, 0, 0⟩
  else ⟨0, 0, 0⟩

/-! ### Persistence: the authenticated server

`db-check.js` lines 259–351 (and identically `server.js` lines 276–390,
the authenticated Supabase variant): goals are stored per user with fixed
columns `id, username, text, category, completed, created_at` plus a JSON
`data` column holding the remaining fields.  The two backends (Supabase
and SQLite) behave alike at this level: SQLite stores the boolean as 0/1
and the handler restores it with `Boolean(row.completed)`, and `data`
round-trips through `JSON.stringify`/`JSON.parse`.  The store is modelled
as the list of rows in insertion order; `ORDER BY created_at DESC` is
modelled by a stable insertion sort on the `created_at` string (ISO
timestamps compare lexicographically in chronological order). -/

namespace DbCheck

/-- A stored goal row. -/
structure Row where
  id : String
  username : String
  text : String
  category : String
  completed : Bool
  created_at : String
  data : List (String × JVal)
deriving DecidableEq

/-- The row written for goal `g` of user `username`: the handler
destructures `{id, text, category, completed, createdAt, ...rest}` and
stores `String(id)` with the rest in the `data` column. -/
def toRow (username : String) (g : Goal) : Row :=
  ⟨jsString g.id, username, g.text, g.category, g.completed, g.createdAt, g.rest⟩

/-- The goal reconstructed from a row by the GET handler: `{id: row.id,
text, category, completed, createdAt: row.created_at, ...data}`. -/
def rowGoal (r : Row) : Goal :=
  ⟨.str r.id, r.text, r.category, r.completed, r.created_at, r.data⟩

/-- Insert a row into a list sorted by strictly descending `created_at`. -/
def insertDesc (r : Row) : List Row → List Row
  | [] => [r]
  | x :: xs => if x.created_at < r.created_at then r :: x :: xs else x :: insertDesc r xs

/-- Model of `ORDER BY created_at DESC` (stable insertion sort). -/
def sortRows (rs : List Row) : List Row := rs.foldr insertDesc []

/-- `GET /api/goals` (db-check.js lines 259–302): empty result when the
`username` query parameter is absent or empty (falsy); otherwise the
user's rows ordered by `created_at` descending, mapped back to goals. -/
def loadGoals (username : Option String) (st : List Row) : List Goal :=
  match username with
  | none => []
  | some u =>
    if u = "" then []
    else (sortRows (st.filter fun r => r.username = u)).map rowGoal

/-- The `goals` field of a `POST /api/goals` body: either a JSON array of
goals or any non-array JSON value. -/
inductive GoalsBody where
  | array : List Goal → GoalsBody
  | nonArray : JVal → GoalsBody

/-- Response of the goals POST handler. -/
inductive PostResp where
  | success
  | badRequest
deriving DecidableEq

/-- `const goalList = Array.isArray(goals) ? goals : []` (db-check.js
line 309). -/
def goalListOf : GoalsBody → List Goal
  | .array gs => gs
  | .nonArray _ => []

/-- One row insert under the goals table's global `id TEXT PRIMARY KEY`:
the insert succeeds only when no stored row — of any user — already
carries the id.  The SQLite handler runs `stmt.run` with no error
callback, so a constraint violation is swallowed and the conflicting row
is silently skipped. -/
def insertRow (st : List Row) (r : Row) : List Row :=
  if st.any fun r' => r'.id = r.id then st else st ++ [r]

/-- `POST /api/goals` (db-check.js lines 305–351): 400 when `username` is
falsy; otherwise delete exactly this user's rows, then insert the rows of
`goalList` one by one under the primary-key constraint, answering
`{status: 'success'}` (the SQLite handler has already sent the success
response when an insert fails, so a conflicting row is lost silently).
The Supabase branch differs only on the constraint-violation path: its
bulk insert fails as a whole after the delete and the handler answers 500
with nothing inserted; when every inserted id is distinct and absent from
the surviving rows — the regime of the round-trip theorem — the two
branches coincide with this model. -/
def postGoals (username : String) (body : GoalsBody) (st : List Row) :
    List Row × PostResp :=
  if username = "" then (st, .badRequest)
  else
    (((goalListOf body).map (toRow username)).foldl insertRow
        (st.filter fun r => r.username ≠ username),
     .success)

/-- A stored user credential row (`users` table). -/
structure UserRow where
  id : String
  username : String
  password_hash : String
  salt : String
  created_at : String
deriving DecidableEq

/-- Response of the register/login endpoints. -/
inductive AuthResp where
  | success : String → AuthResp
  | badRequest
  | invalid
  | failure
deriving DecidableEq

/-- `POST /api/register` (db-check.js lines 126–154), parameterised by the
key-derivation function `hash password salt` (scrypt in the source — a
library primitive, kept abstract) and by the request-scoped random values
(fresh id and salt) and timestamp.  A falsy field gives 400; a duplicate
username violates the `UNIQUE` constraint and surfaces as the generic
registration failure; otherwise the credential row is inserted. -/
def register (hash : String → String → String)
    (username password freshId salt now : String) (st : List UserRow) :
    List UserRow × AuthResp :=
  if username = "" ∨ password = "" then (st, .badRequest)
  else if st.any fun r => r.username = username then (st, .failure)
  else (st ++ [⟨freshId, username, hash password salt, salt, now⟩], .success username)

/-- `POST /api/login` (db-check.js lines 157–186): 400 on a falsy field,
401 on an unknown username, then recompute the scrypt hash against the
stored salt and compare (`timingSafeEqual` on equal-length buffers,
modelled as string equality); the response carries only the username,
never the stored hash. -/
def login (hash : String → String → String)
    (username password : String) (st : List UserRow) : AuthResp :=
  if username = "" ∨ password = "" then .badRequest
  else
    match st.find? fun r => r.username = username with
    | none => .invalid
    | some user =>
      if hash password user.salt = user.password_hash then .success user.username
      else .invalid

end DbCheck

/-! ### Persistence: the unauthenticated server variant

`server.js` lines 1–187: the goals table has no `username` column.
`POST /api/goals` runs `DELETE FROM goals` — the whole table — before
inserting the posted list, and `GET /api/goals` ignores the query string
entirely and returns every stored row.  (When the POST body is not an
array the handler wraps it as `[goals]`; no claim concerns that branch and
it is not modelled.) -/

namespace ServerV1

/-- A stored goal row of the unauthenticated server (no `username`). -/
structure Row where
  id : String
  text : String
  category : String
  completed : Bool
  created_at : String
  data : List (String × JVal)
deriving DecidableEq

/-- The row written for a posted goal. -/
def toRow (g : Goal) : Row :=
  ⟨jsString g.id, g.text, g.category, g.completed, g.createdAt, g.rest⟩

/-- The goal reconstructed from a row by the GET handler. -/
def rowGoal (r : Row) : Goal :=
  ⟨.str r.id, r.text, r.category, r.completed, r.created_at, r.data⟩

/-- Insert a row into a list sorted by strictly descending `created_at`. -/
def insertDesc (r : Row) : List Row → List Row
  | [] => [r]
  | x :: xs => if x.created_at < r.created_at then r :: x :: xs else x :: insertDesc r xs

/-- Model of `ORDER BY created_at DESC`. -/
def sortRows (rs : List Row) : List Row := rs.foldr insertDesc []

/-- One row insert under `id TEXT PRIMARY KEY` (SQLite-branch semantics:
`stmt.run` has no error callback, so a conflicting row is silently
skipped). -/
def insertRow (st : List Row) (r : Row) : List Row :=
  if st.any fun r' => r'.id = r.id then st else st ++ [r]

/-- `POST /api/goals` (server.js lines 140–178): `DELETE FROM goals`
(every row, any user) followed by inserting the posted goals under the
primary-key constraint.  (The PostgreSQL branch wraps the same
delete-then-insert in a transaction and rolls back on a constraint
violation; since the delete empties the whole table first, conflicts can
only arise between posted goals themselves, and for distinct ids the
branches coincide.) -/
def postGoals (goals : List Goal) (_st : List Row) : List Row × DbCheck.PostResp :=
  ((goals.map toRow).foldl insertRow [], .success)

/-- `GET /api/goals` (server.js lines 108–138): the handler reads no query
parameter — whatever `username` accompanies the request, every stored row
is returned, ordered by `created_at` descending. -/
def loadGoals (_username : Option String) (st : List Row) : List Goal :=
  (sortRows st).map rowGoal

end ServerV1

/-! ### The AI advisory gateway (client side)

`analyzeGoal` in both clients wraps the whole fetch/parse pipeline in
`try`/`catch` and returns a fixed fallback object from the `catch`.  The
upstream interaction is modelled by its observable outcome: the fetch
rejects (transport error), `response.json()` rejects (non-JSON body), or
it yields a JSON value. -/

/-- Observable outcome of `fetch('/api/analyze', ...)` followed by
`response.json()`. -/
inductive FetchOutcome where
  | transportError
  | jsonError
  | ok : JVal → FetchOutcome

/-- The optional-chain `result.candidates?.[0]?.content?.parts?.[0]?.text`,
yielding a string or `undefined`.  (Non-string `text` values are outside
the upstream schema and not modelled; every navigation failure is
`none`.) -/
def extractText (v : JVal) : Option String :=
  match (jField v "candidates").bind (jIndex · 0) |>.bind (jField · "content")
      |>.bind (jField · "parts") |>.bind (jIndex · 0) |>.bind (jField · "text") with
  | some (.str s) => some s
  | _ => none

/-- The leading-fence strip `rawText.replace(/^```json\s*/, '')` on the
character list: when the text starts with the seven characters
` ```json `, they are removed together with the whitespace run following
them. -/
def stripLeadFence (cs : List Char) : List Char :=
  if cs.take 7 = fenceHead then (cs.drop 7).dropWhile isWsChar else cs
where
  /-- The seven characters of the opening fence marker. -/
  fenceHead : List Char := ['`', '`', '`', 'j', 's', 'o', 'n']

/-- The trailing-fence strip `.replace(/\s*```$/, '')`: when the text ends
with three backticks, they are removed together with the whitespace run
preceding them. -/
def stripTrailFence (cs : List Char) : List Char :=
  if cs.reverse.take 3 = fenceTail then ((cs.reverse.drop 3).dropWhile isWsChar).reverse
  else cs
where
  /-- The three characters of the closing fence marker, reversed. -/
  fenceTail : List Char := ['`', '`', '`']

/-- Both fence strips, in the order the source applies them. -/
def stripFences (s : String) : String :=
  ⟨stripTrailFence (stripLeadFence s.data)⟩

/-- An upstream reply whose single candidate's text is `s` — the shape
`{candidates: [{content: {parts: [{text: s}]}}]}` produced by the
`/api/analyze` and `/api/chat` endpoints. -/
def geminiReply (s : String) : JVal :=
  .obj [("candidates", .arr [.obj [("content",
    .obj [("parts", .arr [.obj [("text", .str s)]])])]])]

namespace ClientMain

/-- The fallback value of the authenticated client's `analyzeGoal`
(`{category: 'NONE', roadmap: [], subTasks: [], advice: "分析失敗"}`). -/
def fallback : JVal :=
  .obj [("category", .str "NONE"), ("roadmap", .arr []), ("subTasks", .arr []),
        ("advice", .str "分析失敗")]

/-- `analyzeGoal` of the authenticated client (unnamed source file, lines
105–142): extract the candidate text (`throw` when falsy), strip a
leading/trailing code fence, `JSON.parse` the result; any failure lands in
the `catch` and yields `fallback`. -/
def analyzeGoal : FetchOutcome → JVal
  | .transportError => fallback
  | .jsonError => fallback
  | .ok result =>
    match extractText result with
    | none => fallback
    | some raw =>
      if raw = "" then fallback
      else
        match jsonParse (stripFences raw) with
        | none => fallback
        | some content => content

end ClientMain

namespace ClientA

/-- The fallback value of `src/App.jsx`'s `analyzeGoal` (`{category:
'NONE', roadmap: [], subTasks: [], advice: "分析に失敗しました。"}`). -/
def fallback : JVal :=
  .obj [("category", .str "NONE"), ("roadmap", .arr []), ("subTasks", .arr []),
        ("advice", .str "分析に失敗しました。")]

/-- Replace the value stored under `k`, keeping the field order (JS
property assignment on an existing key). -/
def setField (k : String) (newV : JVal) : List (String × JVal) → List (String × JVal)
  | [] => []
  | (k', v) :: rest =>
    if k' = k then (k', newV) :: rest else (k', v) :: setField k newV rest

/-- `if (content.subTasks && content.subTasks.length > 3) content.subTasks
= content.subTasks.slice(0, 3)` (App.jsx line 107). -/
def truncateSubTasks (content : JVal) : JVal :=
  match content with
  | .obj fs =>
    match jLookup "subTasks" fs with
    | some (.arr xs) =>
      if xs.length > 3 then .obj (setField "subTasks" (.arr (xs.take 3)) fs) else content
    | _ => content
  | _ => content

/-- `analyzeGoal` of `src/App.jsx` (lines 70–113): `JSON.parse` the
candidate text directly — no fence stripping — then cap `subTasks` at
three entries; any failure (including `JSON.parse(undefined)` when the
text is missing) lands in the `catch` and yields `fallback`. -/
def analyzeGoal : FetchOutcome → JVal
  | .transportError => fallback
  | .jsonError => fallback
  | .ok result =>
    match extractText result with
    | none => fallback
    | some raw =>
      match jsonParse raw with
      | none => fallback
      | some content => truncateSubTasks content

end ClientA

/-! ### The client save effect -/

namespace ClientMain

/-- The save `useEffect` of the authenticated client (unnamed source file,
lines 44–55): `if (!currentUser || goals.length === 0) return;` then POST
`{username, goals}`.  The value is the request issued, `none` when the
effect returns early. -/
def saveEffect (currentUser : Option String) (goals : List Goal) :
    Option (String × List Goal) :=
  match currentUser with
  | none => none
  | some u => if u = "" ∨ goals.length = 0 then none else some (u, goals)

/-- `deleteGoal` (unnamed source file, line 158): drop the goal with the
given id from the in-memory list. -/
def deleteGoal (i : JVal) (goals : List Goal) : List Goal :=
  goals.filter fun g => g.id ≠ i

end ClientMain

namespace ClientA

/-- The save `useEffect` of `src/App.jsx` (lines 36–44): `if (goals.length
=== 0) return;` then POST the goal list. -/
def saveEffect (goals : List Goal) : Option (List Goal) :=
  if goals.length = 0 then none else some goals

end ClientA

/-- Effect of a (possibly skipped) sync request on the authenticated
server's store: no request leaves the store untouched. -/
def applySync (req : Option (String × List Goal)) (st : List DbCheck.Row) :
    List DbCheck.Row :=
  match req with
  | none => st
  | some (u, gs) => (DbCheck.postGoals u (.array gs) st).1

/-- An upstream text wrapped in code-fence markers, the shape the model
emits when it ignores `responseMimeType` (` ```json ... ``` `). -/
def fenceWrap (s : String) : String := "```json\n" ++ s ++ "\n```"

/-! ## Helper lemmas -/

lemma absDiff_eq_sub (a b : Nat) (h : b ≤ a) : absDiff a b = a - b := by
  simp [absDiff, Nat.max_eq_left h, Nat.min_eq_right h]

lemma countP_range_eq_filter_length (de : Nat) (f : Nat → String) (p : String → Bool) :
    (List.range de).countP (fun i => p (f i)) = (((List.range de).map f).filter p).length := by
  rw [List.countP_eq_length_filter, List.filter_map, List.length_map]
  rfl

lemma clampDays_comm (x : Nat) : max 1 (min 30 x) = min 30 (max 1 x) := by omega

lemma daysChainA (d0 : Nat) :
    (if (if d0 = 0 then 1 else d0) > 30 then 30 else if d0 = 0 then 1 else d0) =
      max 1 (min 30 d0) := by
  by_cases h : d0 = 0
  · simp [h]
  · simp [h]
    split <;> omega

lemma habitA_eq_main (g : HGoal) (nowMs : Nat) :
    ClientA.getHabitStats g nowMs = ClientMain.getHabitStats g nowMs := by
  unfold ClientA.getHabitStats ClientMain.getHabitStats
  cases hc : g.createdAtMs <;> by_cases hcat : g.category = "HABIT" <;>
    simp [hcat, daysChainA]

lemma habitMain_eq_spec (g : HGoal) (nowMs : Nat)
    (h : ∀ t, g.createdAtMs = some t → t ≤ nowMs) :
    ClientMain.getHabitStats g nowMs = habitStatsSpec g nowMs := by
  unfold ClientMain.getHabitStats habitStatsSpec
  cases hc : g.createdAtMs with
  | none => by_cases hcat : g.category = "HABIT" <;> simp [hcat]
  | some start =>
    have hle : start ≤ nowMs := h start hc
    by_cases hcat : g.category = "HABIT" <;>
      simp [hcat, absDiff_eq_sub nowMs start hle, clampDays_comm, msPerDay,
        (show (3600000 * 24 : Nat) = 86400000 by norm_num)]
    constructor <;>
      · rw [List.filter_map, List.length_map, ← List.countP_eq_length_filter]
        rfl

lemma main_habit_window (g : HGoal) (nowMs start de : Nat)
    (hcat : g.category = "HABIT") (hc : g.createdAtMs = some start)
    (hde : max 1 (min 30 (ceilDiv (absDiff nowMs start) msPerDay)) = de) :
    ClientMain.getHabitStats g nowMs =
      ⟨jsRound (100 * ((List.range de).countP fun i =>
          truthy (jLookup (isoDate (nowMs / msPerDay - i)) g.history))) de, de,
        (List.range de).countP fun i =>
          truthy (jLookup (isoDate (nowMs / msPerDay - i)) g.history)⟩ := by
  subst hde
  unfold ClientMain.getHabitStats
  rw [hc]
  simp [hcat]

/-! ## Claim C3 -/

/-- C3: for every goal and date, `computeHabitStats` (both client
variants) returns `daysElapsed = clamp(ceil(hours since createdAt / 24),
1, 30)`, `count` = the number of days in the trailing `daysElapsed`-day
window ending at `asOf` (inclusive, stepping backward one calendar day at
a time) whose `history` entry is truthy, and `rate = round(100 * count /
daysElapsed)`; and it returns rate 0 whenever the category is not HABIT or
`createdAt` is missing.  Stated as equality with `habitStatsSpec`, the
verbatim transcription of the claimed formula. -/
theorem c3_computeHabitStats (g : HGoal) (nowMs : Nat)
    (h : ∀ t, g.createdAtMs = some t → t ≤ nowMs) :
    ClientMain.getHabitStats g nowMs = habitStatsSpec g nowMs ∧
      ClientA.getHabitStats g nowMs = habitStatsSpec g nowMs ∧
      ((g.category ≠ "HABIT" ∨ g.createdAtMs = none) →
        (ClientMain.getHabitStats g nowMs).rate = 0) := by
  refine ⟨habitMain_eq_spec g nowMs h, ?_, ?_⟩
  · rw [habitA_eq_main]
    exact habitMain_eq_spec g nowMs h
  · intro hmiss
    unfold ClientMain.getHabitStats
    rcases hmiss with hcat | hcr
    · simp [hcat]
    · rw [hcr]
      by_cases hcat : g.category = "HABIT" <;> simp [hcat]

/-- C3 witness: the equality evaluated at a concrete habit goal. -/
theorem c3_computeHabitStats_witness :
    ClientMain.getHabitStats ⟨"HABIT", some 0, [("1970-01-01", .bool true)]⟩ 1000 =
        habitStatsSpec ⟨"HABIT", some 0, [("1970-01-01", .bool true)]⟩ 1000 ∧
      ClientA.getHabitStats ⟨"HABIT", some 0, [("1970-01-01", .bool true)]⟩ 1000 =
        habitStatsSpec ⟨"HABIT", some 0, [("1970-01-01", .bool true)]⟩ 1000 := by
  have H := c3_computeHabitStats ⟨"HABIT", some 0, [("1970-01-01", .bool true)]⟩ 1000
    (by intro t ht; simp at ht; omega)
  exact ⟨H.1, H.2.1⟩

/-! ## Claim C4 -/

/-- C4 counterexample: a HABIT goal created at noon of day T (1970-01-01
12:00, createdAt = 43200000 ms) with truthy history entries for days T,
T+1, T+2, evaluated at the very start of day T+2 (1970-01-03 00:00,
asOf = 172800000 ms).  Only 1.5 days have elapsed, so `Math.ceil` gives
`daysElapsed = 2`, the window covers only days T+2 and T+1, and both
client variants return `{rate: 100, daysElapsed: 2, count: 2}` — not the
claimed `{daysElapsed: 3, count: 3, rate: 100}`. -/
theorem c4_habit_three_days_counterexample :
    ClientMain.getHabitStats
        ⟨"HABIT", some 43200000,
          [("1970-01-01", .bool true), ("1970-01-02", .bool true),
           ("1970-01-03", .bool true)]⟩ 172800000 = ⟨100, 2, 2⟩ ∧
      ClientA.getHabitStats
        ⟨"HABIT", some 43200000,
          [("1970-01-01", .bool true), ("1970-01-02", .bool true),
           ("1970-01-03", .bool true)]⟩ 172800000 = ⟨100, 2, 2⟩ ∧
      (⟨100, 2, 2⟩ : HabitStats) ≠ ⟨100, 3, 3⟩ := by
  refine ⟨rfl, rfl, by decide⟩

/-- C4 amended: the claimed `{daysElapsed: 3, count: 3, rate: 100}` holds
for a HABIT goal with `createdAt` on day T, truthy history for days T,
T+1, T+2 and `asOf` on day T+2, provided strictly more than 48 hours
separate `createdAt` from `asOf` (equivalently, asOf's time of day is
later than createdAt's); when at most 48 hours have elapsed the result is
`{daysElapsed: 2, count: 2, rate: 100}` instead (see the
counterexample). -/
theorem c4_habit_three_days_amended (T start nowMs : Nat) (g : HGoal)
    (hcat : g.category = "HABIT") (hc : g.createdAtMs = some start)
    (hs1 : T * msPerDay ≤ start) (hs2 : start < (T + 1) * msPerDay)
    (hn1 : (T + 2) * msPerDay ≤ nowMs) (hn2 : nowMs < (T + 3) * msPerDay)
    (hgap : start + 2 * msPerDay < nowMs)
    (h0 : truthy (jLookup (isoDate T) g.history) = true)
    (h1 : truthy (jLookup (isoDate (T + 1)) g.history) = true)
    (h2 : truthy (jLookup (isoDate (T + 2)) g.history) = true) :
    ClientMain.getHabitStats g nowMs = ⟨100, 3, 3⟩ ∧
      ClientA.getHabitStats g nowMs = ⟨100, 3, 3⟩ := by
  have hle : start ≤ nowMs := by omega
  have hd3 : max 1 (min 30 (ceilDiv (absDiff nowMs start) msPerDay)) = 3 := by
    rw [absDiff_eq_sub nowMs start hle]
    unfold ceilDiv
    unfold msPerDay at hs1 hs2 hn1 hn2 hgap ⊢
    omega
  have hday : nowMs / msPerDay = T + 2 := by
    unfold msPerDay at hn1 hn2 ⊢
    omega
  have hmain := main_habit_window g nowMs start 3 hcat hc hd3
  rw [hday] at hmain
  have hcount : ((List.range 3).countP fun i =>
      truthy (jLookup (isoDate (T + 2 - i)) g.history)) = 3 := by
    have hr : List.range 3 = [0, 1, 2] := rfl
    rw [hr]
    simp only [List.countP_cons, List.countP_nil, Nat.sub_zero,
      (show T + 2 - 1 = T + 1 by omega), (show T + 2 - 2 = T by omega), h0, h1, h2]
    decide
  rw [hcount] at hmain
  have : ClientMain.getHabitStats g nowMs = ⟨100, 3, 3⟩ := by
    rw [hmain]
    decide
  exact ⟨this, by rw [habitA_eq_main]; exact this⟩

/-- C4 witness: the amended statement evaluated with T = 0, createdAt at
the epoch and asOf one millisecond past 48 hours. -/
theorem c4_habit_three_days_witness :
    ClientMain.getHabitStats
        ⟨"HABIT", some 0,
          [("1970-01-01", .bool true), ("1970-01-02", .bool true),
           ("1970-01-03", .bool true)]⟩ 172800001 = ⟨100, 3, 3⟩ ∧
      ClientA.getHabitStats
        ⟨"HABIT", some 0,
          [("1970-01-01", .bool true), ("1970-01-02", .bool true),
           ("1970-01-03", .bool true)]⟩ 172800001 = ⟨100, 3, 3⟩ :=
  c4_habit_three_days_amended 0 0 172800001
    ⟨"HABIT", some 0,
      [("1970-01-01", .bool true), ("1970-01-02", .bool true),
       ("1970-01-03", .bool true)]⟩
    rfl rfl (by decide) (by decide) (by decide) (by decide) (by decide)
    (by decide) (by decide) (by decide)

/-! ## Persistence helper lemmas -/

lemma filter_ne_filter_eq (u : String) (st : List DbCheck.Row) :
    ((st.filter fun r => r.username ≠ u).filter fun r => r.username = u) = [] := by
  induction st with
  | nil => rfl
  | cons r rs ih => by_cases h : r.username = u <;> simp [h, ih]

lemma filter_eq_map_toRow (u : String) (gs : List Goal) :
    ((gs.map (DbCheck.toRow u)).filter fun r => r.username = u) = gs.map (DbCheck.toRow u) := by
  induction gs with
  | nil => rfl
  | cons g gs ih => simp [DbCheck.toRow, ih]

lemma insertRow_fresh (base : List DbCheck.Row) (r : DbCheck.Row)
    (h : ∀ b ∈ base, b.id ≠ r.id) : DbCheck.insertRow base r = base ++ [r] := by
  have hany : (base.any fun r' => r'.id = r.id) = false := by
    rw [List.any_eq_false]
    intro b hb
    simp [h b hb]
  unfold DbCheck.insertRow
  rw [if_neg (by simp [hany])]

lemma foldl_insertRow_append : ∀ (rows base : List DbCheck.Row),
    (∀ r ∈ rows, ∀ b ∈ base, b.id ≠ r.id) →
    ((rows.map fun r => r.id).Nodup) →
    rows.foldl DbCheck.insertRow base = base ++ rows := by
  intro rows
  induction rows with
  | nil =>
    intro base _ _
    simp
  | cons r rows ih =>
    intro base hfresh hnd
    rw [List.map_cons, List.nodup_cons] at hnd
    rw [List.foldl_cons,
      insertRow_fresh base r (fun b hb => hfresh r (List.mem_cons_self r rows) b hb),
      ih (base ++ [r]) ?hf hnd.2]
    · rw [List.append_assoc]
      rfl
    case hf =>
      intro r' hr' b hb
      rcases List.mem_append.1 hb with hb | hb
      · exact hfresh r' (List.mem_cons_of_mem _ hr') b hb
      · have hbr : b = r := by simpa using hb
        subst hbr
        intro he
        apply hnd.1
        rw [he]
        exact List.mem_map_of_mem _ hr'

lemma filter_foldl_insertRow (u2 : String) : ∀ (rows base : List DbCheck.Row),
    (∀ r ∈ rows, r.username ≠ u2) →
    ((rows.foldl DbCheck.insertRow base).filter fun r => r.username = u2) =
      base.filter fun r => r.username = u2 := by
  intro rows
  induction rows with
  | nil =>
    intro base _
    rfl
  | cons r rows ih =>
    intro base h
    rw [List.foldl_cons,
      ih (DbCheck.insertRow base r) (fun r' hr' => h r' (List.mem_cons_of_mem _ hr'))]
    unfold DbCheck.insertRow
    split
    · rfl
    · rw [List.filter_append]
      have hr : ([r].filter fun r' => r'.username = u2) = [] := by
        simp [h r (List.mem_cons_self r rows)]
      rw [hr, List.append_nil]

lemma filter_ne_filter_eq_other (u u2 : String) (hne : u2 ≠ u) (st : List DbCheck.Row) :
    ((st.filter fun r => r.username ≠ u).filter fun r => r.username = u2) =
      st.filter fun r => r.username = u2 := by
  rw [List.filter_filter]
  apply List.filter_congr
  intro r _
  by_cases h : r.username = u2
  · have h' : r.username ≠ u := fun hh => hne (by rw [← h, hh])
    simp [h, h', hne]
  · simp [h]

lemma sortRows_sorted (l : List DbCheck.Row)
    (h : List.Pairwise (fun a b => b.created_at < a.created_at) l) :
    DbCheck.sortRows l = l := by
  induction l with
  | nil => rfl
  | cons a l ih =>
    rw [List.pairwise_cons] at h
    obtain ⟨ha, hl⟩ := h
    unfold DbCheck.sortRows at ih ⊢
    simp only [List.foldr_cons]
    rw [ih hl]
    cases l with
    | nil => rfl
    | cons b bs =>
      show DbCheck.insertDesc a (b :: bs) = a :: b :: bs
      unfold DbCheck.insertDesc
      rw [if_pos (ha b (by simp))]

lemma rowGoal_toRow (u : String) (g : Goal) :
    DbCheck.rowGoal (DbCheck.toRow u g) = { g with id := JVal.str (jsString g.id) } := rfl

/-! ## Claim C1 -/

/-- C1 counterexample: the claim fails on the id's type.  The client
creates ids as numbers (`Date.now()`), the POST handler stores
`String(id)`, and the GET handler returns the stored string, so a goal
posted with the numeric id `123` is loaded back with the string id
`"123"` — every other field unchanged — and `JVal.num 123` is not
JSON-equivalent to `JVal.str "123"`. -/
theorem c1_roundtrip_counterexample :
    DbCheck.loadGoals (some "alice")
        (DbCheck.postGoals "alice"
          (.array [⟨JVal.num 123, "run", "HABIT", false, "2026-01-01T00:00:00.000Z", []⟩])
          []).1 =
      [⟨JVal.str "123", "run", "HABIT", false, "2026-01-01T00:00:00.000Z", []⟩] ∧
      DbCheck.loadGoals (some "alice")
        (DbCheck.postGoals "alice"
          (.array [⟨JVal.num 123, "run", "HABIT", false, "2026-01-01T00:00:00.000Z", []⟩])
          []).1 ≠
        [⟨JVal.num 123, "run", "HABIT", false, "2026-01-01T00:00:00.000Z", []⟩] := by
  refine ⟨rfl, by decide⟩

/-- C1 amended: `replaceGoals(u, gs)` then `loadGoals(u)` returns `gs`
with every field round-tripped unchanged — fixed columns and every field
packed into the data blob — except the id, which comes back as its
`String(...)` coercion (`JVal.str (jsString id)`), and with the sequence
returned in the store's order, `created_at` descending: stated for goal
sequences already listed in strictly descending `createdAt` order whose
stringified ids are pairwise distinct and collide with no other user's
stored row — the goals table's global `id TEXT PRIMARY KEY` rejects any
other insert (SQLite silently drops the conflicting row after success was
already sent; Supabase answers 500 after the delete). -/
theorem c1_roundtrip_amended (u : String) (gs : List Goal) (st : List DbCheck.Row)
    (hu : u ≠ "")
    (hsorted : List.Pairwise (fun a b => b.createdAt < a.createdAt) gs)
    (hnodup : (gs.map fun g => jsString g.id).Nodup)
    (hfresh : ∀ r ∈ st, r.username ≠ u → ∀ g ∈ gs, r.id ≠ jsString g.id) :
    DbCheck.loadGoals (some u) (DbCheck.postGoals u (.array gs) st).1 =
      gs.map fun g => { g with id := JVal.str (jsString g.id) } := by
  unfold DbCheck.postGoals
  rw [if_neg hu]
  have hins : (gs.map (DbCheck.toRow u)).foldl DbCheck.insertRow
      (st.filter fun r => r.username ≠ u) =
      (st.filter fun r => r.username ≠ u) ++ gs.map (DbCheck.toRow u) := by
    apply foldl_insertRow_append
    · intro r hr b hb
      obtain ⟨g, hg, rfl⟩ := List.mem_map.1 hr
      have hbmem := List.mem_filter.1 hb
      have hbne : b.username ≠ u := by simpa using hbmem.2
      exact hfresh b hbmem.1 hbne g hg
    · rw [List.map_map]
      exact hnodup
  show DbCheck.loadGoals (some u)
      ((gs.map (DbCheck.toRow u)).foldl DbCheck.insertRow
        (st.filter fun r => r.username ≠ u)) = _
  rw [hins]
  unfold DbCheck.loadGoals
  simp only []
  rw [if_neg hu]
  show (DbCheck.sortRows
      (((st.filter fun r => r.username ≠ u) ++ gs.map (DbCheck.toRow u)).filter
        fun r => r.username = u)).map DbCheck.rowGoal = _
  rw [List.filter_append, filter_ne_filter_eq, filter_eq_map_toRow, List.nil_append]
  rw [sortRows_sorted]
  · rw [List.map_map]
    simp [Function.comp, rowGoal_toRow]
  · rw [List.pairwise_map]
    exact hsorted

/-- C1 witness: the amended round-trip at a concrete user and goal. -/
theorem c1_roundtrip_witness :
    DbCheck.loadGoals (some "alice")
        (DbCheck.postGoals "alice"
          (.array [⟨JVal.num 5, "stretch", "HOBBY", false, "2026-01-02", [("isExam", .bool false)]⟩])
          []).1 =
      ([⟨JVal.num 5, "stretch", "HOBBY", false, "2026-01-02", [("isExam", .bool false)]⟩] :
          List Goal).map
        fun g => { g with id := JVal.str (jsString g.id) } :=
  c1_roundtrip_amended "alice"
    [⟨JVal.num 5, "stretch", "HOBBY", false, "2026-01-02", [("isExam", .bool false)]⟩] []
    (by decide) (by simp) (by simp) (by simp)

/-! ## Claim C2 -/

/-- C2 counterexample: the claim fails in the unauthenticated `server.js`
variant, whose goals table has no `username` column: its POST handler runs
`DELETE FROM goals` over the whole table, so syncing an empty goal list
erases a previously stored goal that the request had nothing to do with —
the store does not keep any other user's collection intact. -/
theorem c2_frame_counterexample :
    (ServerV1.postGoals []
        [⟨"9", "someone elses goal", "HOBBY", false, "2026-01-01", []⟩]).1 = [] ∧
      ([⟨"9", "someone elses goal", "HOBBY", false, "2026-01-01", []⟩] :
        List ServerV1.Row) ≠ [] :=
  ⟨rfl, by decide⟩

/-- C2 amended: in the authenticated variants (`db-check.js`, and the
Supabase server in `server.js`, which has the same handler),
`replaceGoals(u, gs)` deletes and rewrites only the rows stored for `u`:
for every other username the stored rows are identical before and after
the call.  The unauthenticated `server.js` variant stores goals globally
and deletes the entire table (see the counterexample). -/
theorem c2_frame_amended (u u2 : String) (b : DbCheck.GoalsBody)
    (st : List DbCheck.Row) (hne : u2 ≠ u) :
    (DbCheck.postGoals u b st).1.filter (fun r => r.username = u2) =
      st.filter fun r => r.username = u2 := by
  unfold DbCheck.postGoals
  by_cases hu : u = ""
  · rw [if_pos hu]
  · rw [if_neg hu]
    show ((((DbCheck.goalListOf b).map (DbCheck.toRow u)).foldl DbCheck.insertRow
        (st.filter fun r => r.username ≠ u)).filter fun r => r.username = u2) = _
    rw [filter_foldl_insertRow u2 _ _ ?hrows, filter_ne_filter_eq_other u u2 hne]
    case hrows =>
      intro r hr
      obtain ⟨g, hg, rfl⟩ := List.mem_map.1 hr
      exact fun he => hne he.symm

/-- C2 witness: the frame property at concrete users and stores. -/
theorem c2_frame_witness :
    (DbCheck.postGoals "alice"
          (.array [⟨JVal.num 1, "new", "HABIT", false, "2026-01-05", []⟩])
          [⟨"7", "bob", "read", "HOBBY", true, "2026-01-03", []⟩]).1.filter
        (fun r => r.username = "bob") =
      ([⟨"7", "bob", "read", "HOBBY", true, "2026-01-03", []⟩] :
        List DbCheck.Row).filter fun r => r.username = "bob" :=
  c2_frame_amended "alice" "bob"
    (.array [⟨JVal.num 1, "new", "HABIT", false, "2026-01-05", []⟩])
    [⟨"7", "bob", "read", "HOBBY", true, "2026-01-03", []⟩] (by decide)

/-! ## Claim C7 -/

/-- C7 counterexample: the claim fails in the unauthenticated `server.js`
variant: its GET handler reads no username at all and returns every
stored row, so a request with the username absent returns the whole
(non-empty) table rather than the empty sequence. -/
theorem c7_load_counterexample :
    ServerV1.loadGoals none
      [⟨"9", "somebodys goal", "HOBBY", false, "2026-01-01", []⟩] ≠ [] := by
  decide

/-- C7 amended: in the authenticated variants (`db-check.js`, and the
Supabase server in `server.js`), `loadGoals` returns the empty sequence
when the username is absent or empty (falsy), and for any username with
no stored rows; the unauthenticated `server.js` variant ignores the
username entirely and returns every stored goal (see the
counterexample). -/
theorem c7_load_empty_amended (st : List DbCheck.Row) (u : String)
    (hu : st.filter (fun r => r.username = u) = []) :
    DbCheck.loadGoals none st = [] ∧ DbCheck.loadGoals (some "") st = [] ∧
      (u ≠ "" → DbCheck.loadGoals (some u) st = []) := by
  refine ⟨rfl, rfl, ?_⟩
  intro hne
  unfold DbCheck.loadGoals
  simp only []
  rw [if_neg hne, hu]
  rfl

/-- C7 witness: a store holding only bob's row yields nothing for
alice. -/
theorem c7_load_empty_witness :
    DbCheck.loadGoals none
        ([⟨"7", "bob", "read", "HOBBY", true, "2026-01-03", []⟩] : List DbCheck.Row) = [] ∧
      DbCheck.loadGoals (some "")
        ([⟨"7", "bob", "read", "HOBBY", true, "2026-01-03", []⟩] : List DbCheck.Row) = [] ∧
      ("alice" ≠ "" →
        DbCheck.loadGoals (some "alice")
          ([⟨"7", "bob", "read", "HOBBY", true, "2026-01-03", []⟩] : List DbCheck.Row) = []) :=
  c7_load_empty_amended
    [⟨"7", "bob", "read", "HOBBY", true, "2026-01-03", []⟩] "alice" (by decide)

/-! ## Claim C10 -/

/-- C10: on the authenticated server, a `POST /api/goals` whose `goals`
field is present but not an array (for example a single goal object) is
treated as the empty sequence: all rows stored for that username are
deleted, nothing is inserted, and the response reports success. -/
theorem c10_nonarray_goals (u : String) (v : JVal) (st : List DbCheck.Row)
    (hu : u ≠ "") :
    (DbCheck.postGoals u (.nonArray v) st).1 =
        st.filter (fun r => r.username ≠ u) ∧
      (DbCheck.postGoals u (.nonArray v) st).2 = .success := by
  unfold DbCheck.postGoals
  rw [if_neg hu]
  exact ⟨by simp [DbCheck.goalListOf], rfl⟩

/-- C10 witness: a single goal object posted as the `goals` field wipes
alice's rows, keeps bob's, and reports success. -/
theorem c10_nonarray_goals_witness :
    (DbCheck.postGoals "alice" (.nonArray (.obj [("id", .num 1), ("text", .str "x")]))
          [⟨"1", "alice", "a", "HABIT", false, "2026-01-01", []⟩,
           ⟨"7", "bob", "read", "HOBBY", true, "2026-01-03", []⟩]).1 =
        ([⟨"1", "alice", "a", "HABIT", false, "2026-01-01", []⟩,
          ⟨"7", "bob", "read", "HOBBY", true, "2026-01-03", []⟩] :
          List DbCheck.Row).filter (fun r => r.username ≠ "alice") ∧
      (DbCheck.postGoals "alice" (.nonArray (.obj [("id", .num 1), ("text", .str "x")]))
          [⟨"1", "alice", "a", "HABIT", false, "2026-01-01", []⟩,
           ⟨"7", "bob", "read", "HOBBY", true, "2026-01-03", []⟩]).2 = .success :=
  c10_nonarray_goals "alice" (.obj [("id", .num 1), ("text", .str "x")])
    [⟨"1", "alice", "a", "HABIT", false, "2026-01-01", []⟩,
     ⟨"7", "bob", "read", "HOBBY", true, "2026-01-03", []⟩] (by decide)

/-! ## Claim C5 -/

/-- C5 counterexample: the claim quantifies over every password, but both
endpoints reject a falsy (empty) password with 400 before touching the
store, so `register(u, "")` followed by `verify(u, "")` does not succeed.
(The concrete key-derivation function is irrelevant: the request is
rejected before hashing.) -/
theorem c5_register_verify_counterexample :
    (DbCheck.register (fun p s => p ++ s) "alice" "" "id1" "salt1" "t1" []).2 =
        DbCheck.AuthResp.badRequest ∧
      DbCheck.AuthResp.badRequest ≠ DbCheck.AuthResp.success "alice" :=
  ⟨rfl, by decide⟩

/-- C5 amended: for every not-yet-registered username `u` and nonempty
password `p`, `register(u, p)` succeeds and a subsequent `login(u, p)`
succeeds; `login(u, p2)` fails for every nonempty `p2` whose derived key
differs from `p`'s (the key-derivation function — scrypt in the source —
is abstract here, so collision-freedom at the stored salt is a
hypothesis); and the login response is always either `success u` or the
invalid-credentials error — it never carries the stored hash. -/
theorem c5_register_verify_amended (hash : String → String → String)
    (st : List DbCheck.UserRow) (u p p2 fid salt now : String)
    (hu : u ≠ "") (hp : p ≠ "") (hp2 : p2 ≠ "")
    (hfresh : ∀ r ∈ st, r.username ≠ u)
    (hcol : hash p2 salt ≠ hash p salt) :
    (DbCheck.register hash u p fid salt now st).2 = .success u ∧
      DbCheck.login hash u p (DbCheck.register hash u p fid salt now st).1 = .success u ∧
      DbCheck.login hash u p2 (DbCheck.register hash u p fid salt now st).1 = .invalid ∧
      (∀ q, q ≠ "" →
        DbCheck.login hash u q (DbCheck.register hash u p fid salt now st).1 = .success u ∨
          DbCheck.login hash u q (DbCheck.register hash u p fid salt now st).1 = .invalid) := by
  have hnotany : (st.any fun r => r.username = u) = false := by
    rw [List.any_eq_false]
    intro r hr
    simp [hfresh r hr]
  have hreg : DbCheck.register hash u p fid salt now st =
      (st ++ [⟨fid, u, hash p salt, salt, now⟩], .success u) := by
    unfold DbCheck.register
    rw [if_neg (by simp [hu, hp]), if_neg (by simp [hnotany])]
  have hfind : (st ++ [(⟨fid, u, hash p salt, salt, now⟩ : DbCheck.UserRow)]).find?
      (fun r => r.username = u) = some ⟨fid, u, hash p salt, salt, now⟩ := by
    rw [List.find?_append]
    have h1 : st.find? (fun r => r.username = u) = none := by
      rw [List.find?_eq_none]
      intro r hr
      simp [hfresh r hr]
    rw [h1]
    simp
  have hlogin : ∀ q, q ≠ "" →
      DbCheck.login hash u q (st ++ [⟨fid, u, hash p salt, salt, now⟩]) =
        if hash q salt = hash p salt then .success u else .invalid := by
    intro q hq
    unfold DbCheck.login
    rw [if_neg (by simp [hu, hq]), hfind]
  refine ⟨by rw [hreg], ?_, ?_, ?_⟩
  · rw [hreg]
    rw [hlogin p hp]
    simp
  · rw [hreg]
    rw [hlogin p2 hp2]
    simp [hcol]
  · intro q hq
    rw [hreg, hlogin q hq]
    by_cases h : hash q salt = hash p salt
    · left
      simp [h]
    · right
      simp [h]

/-- C5 witness: the register/verify round at concrete inputs, with an
injective stand-in key-derivation function. -/
theorem c5_register_verify_witness :
    (DbCheck.register (fun p s => p ++ s) "alice" "pw" "id1" "s1" "t1" []).2 =
        .success "alice" ∧
      DbCheck.login (fun p s => p ++ s) "alice" "pw"
          (DbCheck.register (fun p s => p ++ s) "alice" "pw" "id1" "s1" "t1" []).1 =
        .success "alice" ∧
      DbCheck.login (fun p s => p ++ s) "alice" "wrong"
          (DbCheck.register (fun p s => p ++ s) "alice" "pw" "id1" "s1" "t1" []).1 =
        .invalid := by
  have H := c5_register_verify_amended (fun p s => p ++ s) [] "alice" "pw" "wrong"
    "id1" "s1" "t1" (by decide) (by decide) (by decide) (by simp) (by decide)
  exact ⟨H.1, H.2.1, H.2.2.1⟩

/-! ## Claim C6 -/

lemma extractText_geminiReply (s : String) : extractText (geminiReply s) = some s := rfl

lemma analyzeMain_ok (s : String) :
    ClientMain.analyzeGoal (.ok (geminiReply s)) =
      if s = "" then ClientMain.fallback
      else
        match jsonParse (stripFences s) with
        | none => ClientMain.fallback
        | some content => content := by
  simp only [ClientMain.analyzeGoal]
  rw [extractText_geminiReply]

lemma analyzeA_ok (s : String) :
    ClientA.analyzeGoal (.ok (geminiReply s)) =
      match jsonParse s with
      | none => ClientA.fallback
      | some content => ClientA.truncateSubTasks content := by
  simp only [ClientA.analyzeGoal]
  rw [extractText_geminiReply]

/-- C6: on every failure the analyze pipeline covers — the fetch rejects
(network transport error), the response body is not JSON, the candidate
text is missing (as with an upstream error payload, which has no
`candidates`), or the candidate text does not parse as JSON — both client
variants of `analyzeGoal` return their fixed fallback value `{category:
NONE, roadmap: [], subTasks: [], advice: <analysis-failed message>}`
instead of propagating the error, so goal creation always completes. -/
theorem c6_analyze_fallback :
    (ClientMain.analyzeGoal .transportError = ClientMain.fallback) ∧
      (ClientA.analyzeGoal .transportError = ClientA.fallback) ∧
      (ClientMain.analyzeGoal .jsonError = ClientMain.fallback) ∧
      (ClientA.analyzeGoal .jsonError = ClientA.fallback) ∧
      (∀ v, extractText v = none →
        ClientMain.analyzeGoal (.ok v) = ClientMain.fallback ∧
          ClientA.analyzeGoal (.ok v) = ClientA.fallback) ∧
      (∀ s, jsonParse (stripFences s) = none →
        ClientMain.analyzeGoal (.ok (geminiReply s)) = ClientMain.fallback) ∧
      (∀ s, jsonParse s = none →
        ClientA.analyzeGoal (.ok (geminiReply s)) = ClientA.fallback) := by
  refine ⟨rfl, rfl, rfl, rfl, ?_, ?_, ?_⟩
  · intro v hv
    constructor
    · simp only [ClientMain.analyzeGoal]
      rw [hv]
    · simp only [ClientA.analyzeGoal]
      rw [hv]
  · intro s hs
    rw [analyzeMain_ok]
    by_cases h : s = ""
    · rw [if_pos h]
    · rw [if_neg h, hs]
  · intro s hs
    rw [analyzeA_ok, hs]

/-- C6 witness: the fallback at an upstream error payload (no
`candidates` field) and at a candidate text that is not JSON. -/
theorem c6_analyze_fallback_witness :
    ClientMain.analyzeGoal (.ok (.obj [("error", .str "quota exceeded")])) =
        ClientMain.fallback ∧
      ClientA.analyzeGoal (.ok (.obj [("error", .str "quota exceeded")])) =
        ClientA.fallback ∧
      ClientMain.analyzeGoal (.ok (geminiReply "not json")) = ClientMain.fallback ∧
      ClientA.analyzeGoal (.ok (geminiReply "also not json")) = ClientA.fallback := by
  have H := c6_analyze_fallback
  exact ⟨(H.2.2.2.2.1 _ (by decide)).1, (H.2.2.2.2.1 _ (by decide)).2,
    H.2.2.2.2.2.1 "not json" (by decide), H.2.2.2.2.2.2 "also not json" (by decide)⟩

/-! ## Claim C8 -/

lemma fenceWrap_data (s : String) :
    (fenceWrap s).data = "```json\n".data ++ (s.data ++ "\n```".data) := by
  unfold fenceWrap
  rw [String.data_append, String.data_append, List.append_assoc]

lemma fenceWrap_ne_empty (s : String) : fenceWrap s ≠ "" := by
  intro h
  have hd := congrArg String.data h
  rw [fenceWrap_data] at hd
  simp at hd

lemma mk_ne_empty (cs : List Char) (hne : cs ≠ []) : (⟨cs⟩ : String) ≠ "" := by
  intro h
  exact hne (congrArg String.data h)

lemma stripFences_noop (cs : List Char)
    (h1 : cs.take 7 ≠ stripLeadFence.fenceHead)
    (h2 : cs.reverse.take 3 ≠ stripTrailFence.fenceTail) :
    stripFences ⟨cs⟩ = ⟨cs⟩ := by
  unfold stripFences stripLeadFence stripTrailFence
  rw [if_neg h1, if_neg h2]

lemma stripFences_fenceWrap (cs : List Char) (hne : cs ≠ [])
    (hh : ∀ c, cs.head? = some c → isWsChar c = false)
    (hl : ∀ c, cs.getLast? = some c → isWsChar c = false) :
    stripFences (fenceWrap ⟨cs⟩) = ⟨cs⟩ := by
  obtain ⟨c, cs', rfl⟩ := List.exists_cons_of_ne_nil hne
  have hc : isWsChar c = false := hh c rfl
  have hlead : stripLeadFence (fenceWrap ⟨c :: cs'⟩).data =
      (c :: cs') ++ "\n```".data := by
    rw [fenceWrap_data]
    show stripLeadFence (stripLeadFence.fenceHead ++
      ('\n' :: ((c :: cs') ++ "\n```".data))) = _
    unfold stripLeadFence
    rw [if_pos ?hpre]
    case hpre =>
      have h := List.take_left stripLeadFence.fenceHead
        ('\n' :: ((c :: cs') ++ "\n```".data))
      rw [show stripLeadFence.fenceHead.length = 7 from rfl] at h
      exact h
    have hdrop := List.drop_left stripLeadFence.fenceHead
      ('\n' :: ((c :: cs') ++ "\n```".data))
    rw [show stripLeadFence.fenceHead.length = 7 from rfl] at hdrop
    rw [hdrop, List.dropWhile_cons]
    rw [if_pos (show isWsChar '\n' = true from rfl)]
    rw [List.cons_append, List.dropWhile_cons]
    rw [if_neg (by simp [hc])]
  have hrevne : (c :: cs').reverse ≠ [] := by simp
  obtain ⟨d, ds, hd⟩ := List.exists_cons_of_ne_nil hrevne
  have hdlast : (c :: cs').getLast? = some d := by
    rw [← List.head?_reverse, hd]
    rfl
  have hdws : isWsChar d = false := hl d hdlast
  have htrail : stripTrailFence ((c :: cs') ++ "\n```".data) = c :: cs' := by
    unfold stripTrailFence
    have hrev : ((c :: cs') ++ "\n```".data).reverse =
        '`' :: '`' :: '`' :: '\n' :: (c :: cs').reverse := by
      rw [List.reverse_append]
      rfl
    rw [if_pos ?hsuf]
    case hsuf =>
      rw [hrev]
      rfl
    rw [hrev]
    show ((('\n' :: (c :: cs').reverse).dropWhile isWsChar)).reverse = _
    rw [List.dropWhile_cons]
    simp only [show isWsChar '\n' = true from rfl, if_pos]
    rw [hd, List.dropWhile_cons, hdws]
    simp [← hd]
  show (⟨stripTrailFence (stripLeadFence (fenceWrap ⟨c :: cs'⟩).data)⟩ : String) = _
  rw [hlead, htrail]

/-- C8 counterexample: the claim fails in the `src/App.jsx` client
variant, which does not strip code fences before `JSON.parse`: given the
upstream text `{"category":"HABIT"}` wrapped in fences it falls into the
catch and returns the fallback, while the unwrapped text parses to the
category object — two different parse results. -/
theorem c8_fence_counterexample :
    ClientA.analyzeGoal
        (.ok (geminiReply "```json\n\x7b\"category\":\"HABIT\"\x7d\n```")) =
      ClientA.fallback ∧
      ClientA.analyzeGoal (.ok (geminiReply "\x7b\"category\":\"HABIT\"\x7d")) =
        JVal.obj [("category", .str "HABIT")] ∧
      ClientA.fallback ≠ JVal.obj [("category", .str "HABIT")] :=
  ⟨rfl, rfl, by decide⟩

/-- C8 amended: the fence-stripping equivalence holds in the
authenticated client (the unnamed source file): for every upstream text
with no leading/trailing whitespace that does not itself begin with a
fence marker or end with backticks, `analyzeGoal` parses the fence-wrapped
text exactly as it parses the unwrapped text.  The `src/App.jsx` variant
does not strip fences (see the counterexample). -/
theorem c8_fence_strip_amended (cs : List Char) (hne : cs ≠ [])
    (h1 : cs.take 7 ≠ stripLeadFence.fenceHead)
    (h2 : cs.reverse.take 3 ≠ stripTrailFence.fenceTail)
    (hh : ∀ c, cs.head? = some c → isWsChar c = false)
    (hl : ∀ c, cs.getLast? = some c → isWsChar c = false) :
    ClientMain.analyzeGoal (.ok (geminiReply (fenceWrap ⟨cs⟩))) =
      ClientMain.analyzeGoal (.ok (geminiReply ⟨cs⟩)) := by
  rw [analyzeMain_ok, analyzeMain_ok,
    if_neg (fenceWrap_ne_empty ⟨cs⟩), if_neg (mk_ne_empty cs hne),
    stripFences_fenceWrap cs hne hh hl, stripFences_noop cs h1 h2]

/-- C8 witness: the amended equivalence at the concrete upstream text
`{"a":1}`. -/
theorem c8_fence_strip_witness :
    ClientMain.analyzeGoal (.ok (geminiReply (fenceWrap "\x7b\"a\":1\x7d"))) =
      ClientMain.analyzeGoal (.ok (geminiReply "\x7b\"a\":1\x7d")) :=
  c8_fence_strip_amended ("\x7b\"a\":1\x7d" : String).data (by decide) (by decide)
    (by decide)
    (by intro c hc; injection hc with h; rw [← h]; decide)
    (by intro c hc; injection hc with h; rw [← h]; decide)

/-! ## Claim C9 -/

/-- C9: the save effect returns early when the in-memory goal list is
empty (in the authenticated client also when no user is logged in), so no
POST is issued; in particular deleting the last remaining goal produces
the empty list, no sync request is sent, and the server's stored
collection for the user is unchanged. -/
theorem c9_empty_list_never_synced (u : String) (g : Goal) (st : List DbCheck.Row) :
    ClientMain.saveEffect (some u) [] = none ∧
      ClientMain.saveEffect none [] = none ∧
      ClientA.saveEffect [] = none ∧
      applySync (ClientMain.saveEffect (some u) []) st = st ∧
      applySync (ClientMain.saveEffect (some u) (ClientMain.deleteGoal g.id [g])) st = st := by
  have hdel : ClientMain.deleteGoal g.id [g] = [] := by
    unfold ClientMain.deleteGoal
    simp
  have hse : ∀ u', ClientMain.saveEffect (some u') [] = none := by
    intro u'
    unfold ClientMain.saveEffect
    simp
  refine ⟨hse u, rfl, rfl, ?_, ?_⟩
  · rw [hse u]
    rfl
  · rw [hdel, hse u]
    rfl
